import Mathlib

/-!
Verification of the Rat-Bot-Bluesky repository: a shallow embedding of the
sensitivity classifier, the reply/dedup logic and the dataset builder
(src/bluesky_bot.py and src/process_twitter.py), together with theorems
settling the specification claims.

Text is modelled as a list of characters; Python string primitives
(lower, strip, split, substring containment, int parsing) are embedded as
executable functions on character lists.
-/

namespace RatBot

abbrev Text := List Char

/-- Python substring containment: pat in t, over character lists. -/
def strContains : Text → Text → Bool
  | [], pat => pat.isEmpty
  | c :: rest, pat => pat.isPrefixOf (c :: rest) || strContains rest pat

/-- Python str.lower, character by character. -/
def pyLower (t : Text) : Text := t.map Char.toLower

/-- Python str.strip: drop leading and trailing whitespace. -/
def pyStrip (t : Text) : Text :=
  ((t.dropWhile Char.isWhitespace).reverse.dropWhile Char.isWhitespace).reverse

def splitWsAux : Text → Text → List Text
  | [], acc => if acc.isEmpty then [] else [acc.reverse]
  | c :: rest, acc =>
    if c.isWhitespace then
      if acc.isEmpty then splitWsAux rest [] else acc.reverse :: splitWsAux rest []
    else splitWsAux rest (c :: acc)

/-- Python str.split with no separator: split on whitespace runs, no empty tokens. -/
def pySplit (t : Text) : List Text := splitWsAux t []

def spaceChar : Char := Char.ofNat 32

/-- The keyword lists of ContentFilter.sensitive_topics in bluesky_bot.py. -/
def death_keywords : List String :=
  [("rip"), ("rest in peace"), ("passed away"), ("death"), ("died"), ("dead"),
   ("condolences"), ("funeral"), ("mourning"), ("tragedy"), ("fatal"), ("killed"),
   ("loss"), ("gone too soon"), ("in loving memory"), ("memorial")]

def tragedy_keywords : List String :=
  [("accident"), ("disaster"), ("emergency"), ("crisis"), ("tragic"), ("devastated"),
   ("devastating"), ("horrible news"), ("terrible news"), ("catastrophe")]

def health_keywords : List String :=
  [("hospital"), ("sick"), ("illness"), ("disease"), ("cancer"), ("surgery"),
   ("diagnosed"), ("treatment"), ("health"), ("medical"), ("recovery")]

def relationship_keywords : List String :=
  [("breakup"), ("divorce"), ("separated"), ("break up"), ("broke up"),
   ("breaking up"), ("split up"), ("splitting up"), ("heartbreak")]

def grief_keywords : List String :=
  [("grief"), ("grieving"), ("sorry for your loss"), ("heartbroken"),
   ("devastating"), ("miss you"), ("missing you")]

/-- ContentFilter.sensitive_topics: topic name paired with its trigger phrases. -/
def sensitive_topics : List (String × List String) :=
  [(("death"), death_keywords),
   (("tragedy"), tragedy_keywords),
   (("health"), health_keywords),
   (("relationship"), relationship_keywords),
   (("grief"), grief_keywords)]

/-- ContentFilter.all_keywords: union of all topic keyword lists (membership-equivalent
to the Python set). -/
def all_keywords : List String := (sensitive_topics.map Prod.snd).flatten

/-- ContentFilter.preprocess_text: lowercase, strip, keep alphanumerics and
whitespace, split into words. -/
def preprocess_text (text : Text) : List Text :=
  pySplit ((pyStrip (pyLower text)).filter (fun c => c.isAlphanum || c.isWhitespace))

/-- Adding an element to the detected-topics set (Python set.add, modelled as an
insertion-ordered duplicate-free list). -/
def setAdd (acc : List String) (x : String) : List String :=
  if x ∈ acc then acc else acc ++ [x]

/-- Inner loop of the substring pass: for each keyword of a topic, add the topic
when the keyword occurs in the lowercased text. -/
def addTopicIfKw (tl : Text) (topic : String) : List String → List String → List String
  | acc, [] => acc
  | acc, kw :: kws =>
      addTopicIfKw tl topic (if strContains tl kw.data then setAdd acc topic else acc) kws

/-- Substring pass of contains_sensitive_content over all topics. -/
def passSubstr (tl : Text) : List String → List (String × List String) → List String
  | acc, [] => acc
  | acc, tk :: rest => passSubstr tl (addTopicIfKw tl tk.1 acc tk.2) rest

/-- The bigram string f-string of adjacent words: words i and i+1 joined by one space. -/
def joinBigram (a b : Text) : Text := a ++ spaceChar :: b

/-- Inner loop of the bigram pass: add every topic whose keyword list contains the bigram. -/
def bigramTopics (bg : Text) : List String → List (String × List String) → List String
  | acc, [] => acc
  | acc, tk :: rest =>
      bigramTopics bg (if tk.2.any (fun kw => kw.data == bg) then setAdd acc tk.1 else acc) rest

/-- Bigram pass of contains_sensitive_content over the adjacent word pairs. -/
def passBigram : List String → List (Text × Text) → List String
  | acc, [] => acc
  | acc, p :: rest =>
      passBigram
        (if all_keywords.any (fun kw => kw.data == joinBigram p.1 p.2) then
          bigramTopics (joinBigram p.1 p.2) acc sensitive_topics
        else acc) rest

/-- ContentFilter.contains_sensitive_content: empty text is not sensitive; otherwise
run the substring pass and then the bigram pass and report whether any topic was
detected, together with the detected topics. -/
def contains_sensitive_content (text : Text) : Bool × List String :=
  if text.isEmpty then (false, [])
  else
    let detected :=
      passBigram (passSubstr (pyLower text) [] sensitive_topics)
        ((preprocess_text text).zip (preprocess_text text).tail)
    (!detected.isEmpty, detected)

/-- A strong reference to a post: URI plus content identifier. -/
structure StrongRef where
  uri : String
  cid : String
deriving DecidableEq

/-- A feed item as consumed by the bot: the post's own uri/cid, its record text
(none when the text field is absent or unreadable, the KeyError case), and the
root reference of the thread when the item carries reply information. -/
structure Post where
  uri : String
  cid : String
  text : Option Text
  reply_root : Option StrongRef
deriving DecidableEq

/-- BlueskyBot.extract_reply_info: on a post with reply information return
(parent, root) where parent is the candidate post itself and root comes from the
reply data; otherwise (None, None). -/
def extract_reply_info (p : Post) : Option StrongRef × Option StrongRef :=
  match p.reply_root with
  | some root => (some ⟨p.uri, p.cid⟩, some root)
  | none => (none, none)

/-- BlueskyBot.should_reply_to_post: missing text fails open; otherwise consult
the content filter. -/
def should_reply_to_post (p : Post) : Bool × String :=
  match p.text with
  | none => (true, ("No text content"))
  | some t =>
    let r := contains_sensitive_content t
    if r.1 then (false, ("Post contains sensitive topics: ") ++ String.intercalate (", ") r.2)
    else (true, ("Content appropriate for reply"))

/-- The persisted replied-posts file: missing, not decodable as JSON, or a JSON
array of URI strings. -/
inductive FileState where
  | missing
  | malformed
  | json (entries : List String)
deriving DecidableEq

/-- BlueskyBot.load_replied_posts: read the file into a set; a missing or
undecodable file yields the empty set. -/
def load_replied_posts : FileState → Finset String
  | .missing => (∅ : Finset String)
  | .malformed => (∅ : Finset String)
  | .json l => l.toFinset

/-- BlueskyBot.save_replied_posts: dump the set as a JSON array listing its
elements (Python lists the set in an arbitrary order; the model lists it in
sorted order, one admissible enumeration). -/
def save_replied_posts (s : Finset String) : FileState :=
  .json (s.sort (fun a b => a ≤ b))

/-- The mutable bot state touched by reply_to_post: the in-memory replied set and
the persisted file. -/
structure BotState where
  replied_posts : Finset String
  file : FileState
deriving DecidableEq

/-- The external collaborators of one reply_to_post call: whether the image file
is readable, and whether client.send_image succeeds (false = it raises). -/
structure ReplyEnv where
  image : Option Unit
  dispatchOk : Bool
deriving DecidableEq

/-- One dispatch (client.send_image) call: reply text and the parent/root refs. -/
structure DispatchCall where
  text : String
  parent : StrongRef
  root : StrongRef
deriving DecidableEq

/-- BlueskyBot.reply_to_post: eligibility gate, replied-set membership guard,
image read, dispatch, and mark-replied-then-persist only on dispatch success.
Returns (result, final state, dispatch calls issued). -/
def reply_to_post (st : BotState) (p : Post) (reply_text : String) (env : ReplyEnv) :
    Bool × BotState × List DispatchCall :=
  if (should_reply_to_post p).1 = false then (false, st, [])
  else if p.uri ∈ st.replied_posts then (false, st, [])
  else
    match env.image with
    | none => (false, st, [])
    | some _ =>
      match extract_reply_info p with
      | (some parent, some root) =>
        if env.dispatchOk then
          (true, ⟨insert p.uri st.replied_posts,
            save_replied_posts (insert p.uri st.replied_posts)⟩,
            [⟨reply_text, parent, root⟩])
        else (false, st, [⟨reply_text, parent, root⟩])
      | _ =>
        if env.dispatchOk then
          (true, ⟨insert p.uri st.replied_posts,
            save_replied_posts (insert p.uri st.replied_posts)⟩,
            [⟨reply_text, ⟨p.uri, p.cid⟩, ⟨p.uri, p.cid⟩⟩])
        else (false, st, [⟨reply_text, ⟨p.uri, p.cid⟩, ⟨p.uri, p.cid⟩⟩])

/-- One row of the dataset CSV. -/
structure CsvRow where
  id : Nat
  twitter_url : String
  local_image_path : String
  reply_text : String
deriving DecidableEq

/-- The sequential scan of BlueskyBot.get_random_content: first row whose ID
equals the chosen integer. -/
def findRowById (x : Nat) : List CsvRow → Option (String × String)
  | [] => none
  | r :: rs => if r.id = x then some (r.local_image_path, r.reply_text) else findRowById x rs

/-- BlueskyBot.get_random_content: draw random.randint(1, 514) and scan the CSV
rows for that ID; the random draw is an external oracle applied to the fixed
bounds. -/
def get_random_content (randint : Nat → Nat → Nat) (rows : List CsvRow) :
    Option (String × String) :=
  findRowById (randint 1 514) rows

/-- One (id, url, caption) triple parsed from the source file. -/
structure Triple where
  id : Nat
  url : String
  caption : String
deriving DecidableEq

instance : IsTotal Triple (fun a b => a.id ≤ b.id) := ⟨fun a b => Nat.le_total a.id b.id⟩

instance : IsTrans Triple (fun a b => a.id ≤ b.id) := ⟨fun _ _ _ h1 h2 => Nat.le_trans h1 h2⟩

/-- extract_data_from_code in process_twitter.py, after regex matching: the
matched triples sorted by id ascending (stable sort, as list.sort). -/
def extract_data_from_code (parsed : List Triple) : List Triple :=
  List.insertionSort (fun a b => a.id ≤ b.id) parsed

/-- The already-processed IDs read from an existing output CSV. -/
def processed_ids_of (csvIds : List Nat) : Finset Nat := csvIds.toFinset

/-- The filtered worklist of process_twitter_data: sorted source triples with
id >= start_from and id not already processed; the main loop then handles
exactly these, in this order. -/
def process_twitter_data_plan (parsed : List Triple) (processed : Finset Nat)
    (start_from : Nat) : List Triple :=
  (extract_data_from_code parsed).filter (fun t => decide (start_from ≤ t.id ∧ t.id ∉ processed))

/-- An img element as seen through Selenium: its src attribute and its width and
height attributes (none when the attribute is absent). -/
structure ImgElement where
  src : Option String
  width : Option String
  height : Option String
deriving DecidableEq

/-- Whether a source URL looks like a profile/avatar image: contains profile or
avatar in its lowercased form. -/
def profileLike (src : String) : Bool :=
  strContains (pyLower src.data) (("profile").data) || strContains (pyLower src.data) (("avatar").data)

/-- Python int() on a nonnegative decimal digit string; none models ValueError. -/
def parseNatChars (cs : Text) : Option Nat :=
  if !cs.isEmpty && cs.all Char.isDigit then
    some (cs.foldl (fun n c => 10 * n + (c.toNat - 48)) 0)
  else none

/-- Python int(attr or 0): an absent or empty attribute is 0; a present
non-numeric attribute raises ValueError (none). -/
def pyIntAttr : Option String → Option Nat
  | none => some 0
  | some s => if s.data.isEmpty then some 0 else parseNatChars s.data

/-- The per-element test of get_image_url_from_tweet: some src when the element
joins valid_images, none when it is skipped. An element is kept when its src is
truthy and not profile/avatar-like, and either its width*height exceeds 10000 or
reading a dimension attribute raises ValueError. -/
def elementValid (e : ImgElement) : Option String :=
  match e.src with
  | none => none
  | some src =>
    if src.data.isEmpty then none
    else if profileLike src then none
    else
      match pyIntAttr e.width with
      | none => some src
      | some w =>
        match pyIntAttr e.height with
        | none => some src
        | some h => if 10000 < w * h then some src else none

/-- The characters of a list before the first occurrence of pat (Python
s.split(pat)[0]). -/
def takeBeforePat (pat : Text) : Text → Text
  | [] => []
  | c :: rest => if pat.isPrefixOf (c :: rest) then [] else c :: takeBeforePat pat rest

/-- URL normalization of get_image_url_from_tweet: rewrite a ?format= query to
request format=jpg&name=large. -/
def normalize_image_url (url : String) : String :=
  if strContains url.data (("?format=").data) then
    String.mk (takeBeforePat (("?format=").data) url.data) ++ ("?format=jpg&name=large")
  else url

/-- The selector search of get_image_url_from_tweet: per selector, collect the
valid images; the first selector with a nonempty list yields its first entry,
normalized. -/
def get_image_url : List (List ImgElement) → Option String
  | [] => none
  | els :: rest =>
    match els.filterMap elementValid with
    | [] => get_image_url rest
    | src :: _ => some (normalize_image_url src)

end RatBot

namespace RatBot

theorem mem_setAdd_iff {acc : List String} {x y : String} :
    y ∈ setAdd acc x ↔ y ∈ acc ∨ y = x := by
  unfold setAdd
  by_cases h : x ∈ acc
  · simp only [if_pos h]
    constructor
    · exact Or.inl
    · rintro (hy | rfl)
      · exact hy
      · exact h
  · simp only [if_neg h, List.mem_append, List.mem_singleton]

theorem mem_addTopicIfKw_iff (tl : Text) (topic : String) (kws : List String) :
    ∀ (acc : List String) (x : String),
      x ∈ addTopicIfKw tl topic acc kws ↔
        x ∈ acc ∨ (x = topic ∧ ∃ kw ∈ kws, strContains tl kw.data = true) := by
  induction kws with
  | nil => intro acc x; simp [addTopicIfKw]
  | cons kw kws ih =>
    intro acc x
    simp only [addTopicIfKw]
    rw [ih]
    by_cases h : strContains tl kw.data = true
    · simp only [if_pos h, mem_setAdd_iff, List.mem_cons]
      constructor
      · rintro ((hy | rfl) | ⟨rfl, kw2, hkw2, hc⟩)
        · exact Or.inl hy
        · exact Or.inr ⟨rfl, kw, Or.inl rfl, h⟩
        · exact Or.inr ⟨rfl, kw2, Or.inr hkw2, hc⟩
      · rintro (hy | ⟨rfl, kw2, hmem, hc⟩)
        · exact Or.inl (Or.inl hy)
        · rcases hmem with rfl | hmem
          · exact Or.inl (Or.inr rfl)
          · exact Or.inr ⟨rfl, kw2, hmem, hc⟩
    · simp only [if_neg h, List.mem_cons]
      constructor
      · rintro (hy | ⟨rfl, kw2, hkw2, hc⟩)
        · exact Or.inl hy
        · exact Or.inr ⟨rfl, kw2, Or.inr hkw2, hc⟩
      · rintro (hy | ⟨rfl, kw2, hmem, hc⟩)
        · exact Or.inl hy
        · rcases hmem with rfl | hmem
          · exact absurd hc h
          · exact Or.inr ⟨rfl, kw2, hmem, hc⟩

theorem mem_passSubstr_iff (tl : Text) (topics : List (String × List String)) :
    ∀ (acc : List String) (x : String),
      x ∈ passSubstr tl acc topics ↔
        x ∈ acc ∨ ∃ kws, (x, kws) ∈ topics ∧ ∃ kw ∈ kws, strContains tl kw.data = true := by
  induction topics with
  | nil => intro acc x; simp [passSubstr]
  | cons tk rest ih =>
    intro acc x
    simp only [passSubstr]
    rw [ih, mem_addTopicIfKw_iff]
    constructor
    · rintro ((hy | ⟨rfl, kw, hkw, hc⟩) | ⟨kws, hmem, hex⟩)
      · exact Or.inl hy
      · exact Or.inr ⟨tk.2, by simp [List.mem_cons], kw, hkw, hc⟩
      · exact Or.inr ⟨kws, List.mem_cons_of_mem _ hmem, hex⟩
    · rintro (hy | ⟨kws, hmem, hex⟩)
      · exact Or.inl (Or.inl hy)
      · rcases List.mem_cons.mp hmem with heq | hmem
        · have h1 : x = tk.1 := congrArg Prod.fst heq
          have h2 : kws = tk.2 := congrArg Prod.snd heq
          subst h2
          exact Or.inl (Or.inr ⟨h1, hex⟩)
        · exact Or.inr ⟨kws, hmem, hex⟩

theorem mem_all_keywords_of_topic {topic kw : String} {kws : List String}
    (h : (topic, kws) ∈ sensitive_topics) (hkw : kw ∈ kws) : kw ∈ all_keywords := by
  unfold all_keywords
  rw [List.mem_flatten]
  exact ⟨kws, List.mem_map.mpr ⟨(topic, kws), h, rfl⟩, hkw⟩

theorem mem_bigramTopics_iff (bg : Text) (topics : List (String × List String)) :
    ∀ (acc : List String) (x : String),
      x ∈ bigramTopics bg acc topics ↔
        x ∈ acc ∨ ∃ kws, (x, kws) ∈ topics ∧ ∃ kw ∈ kws, kw.data = bg := by
  induction topics with
  | nil => intro acc x; simp [bigramTopics]
  | cons tk rest ih =>
    intro acc x
    simp only [bigramTopics]
    rw [ih]
    by_cases h : tk.2.any (fun kw => kw.data == bg) = true
    · have hex : ∃ kw ∈ tk.2, kw.data = bg := by
        simpa only [List.any_eq_true, beq_iff_eq] using h
      simp only [if_pos h, mem_setAdd_iff, List.mem_cons]
      constructor
      · rintro ((hy | rfl) | ⟨kws, hmem, hex2⟩)
        · exact Or.inl hy
        · exact Or.inr ⟨tk.2, Or.inl rfl, hex⟩
        · exact Or.inr ⟨kws, Or.inr hmem, hex2⟩
      · rintro (hy | ⟨kws, hmem, hex2⟩)
        · exact Or.inl (Or.inl hy)
        · rcases hmem with heq | hmem
          · have h1 : x = tk.1 := congrArg Prod.fst heq
            subst h1
            exact Or.inl (Or.inr rfl)
          · exact Or.inr ⟨kws, hmem, hex2⟩
    · have hno : ¬ ∃ kw ∈ tk.2, kw.data = bg := by
        intro hex
        apply h
        rw [List.any_eq_true]
        rcases hex with ⟨kw, hkw, hd⟩
        exact ⟨kw, hkw, by simpa only [beq_iff_eq] using hd⟩
      simp only [if_neg h, List.mem_cons]
      constructor
      · rintro (hy | ⟨kws, hmem, hex2⟩)
        · exact Or.inl hy
        · exact Or.inr ⟨kws, Or.inr hmem, hex2⟩
      · rintro (hy | ⟨kws, hmem, hex2⟩)
        · exact Or.inl hy
        · rcases hmem with heq | hmem
          · have h2 : kws = tk.2 := congrArg Prod.snd heq
            subst h2
            exact absurd hex2 hno
          · exact Or.inr ⟨kws, hmem, hex2⟩

theorem mem_passBigram_iff (pairs : List (Text × Text)) :
    ∀ (acc : List String) (x : String),
      x ∈ passBigram acc pairs ↔
        x ∈ acc ∨ ∃ p ∈ pairs, ∃ kws, (x, kws) ∈ sensitive_topics ∧
          ∃ kw ∈ kws, kw.data = joinBigram p.1 p.2 := by
  induction pairs with
  | nil => intro acc x; simp [passBigram]
  | cons p rest ih =>
    intro acc x
    simp only [passBigram]
    rw [ih]
    by_cases h : all_keywords.any (fun kw => kw.data == joinBigram p.1 p.2) = true
    · simp only [if_pos h]
      rw [mem_bigramTopics_iff]
      constructor
      · rintro ((hy | ⟨kws, hmem, hex⟩) | ⟨q, hq, hrest⟩)
        · exact Or.inl hy
        · exact Or.inr ⟨p, List.mem_cons_self _ _, kws, hmem, hex⟩
        · exact Or.inr ⟨q, List.mem_cons_of_mem _ hq, hrest⟩
      · rintro (hy | ⟨q, hq, hrest⟩)
        · exact Or.inl (Or.inl hy)
        · rcases List.mem_cons.mp hq with rfl | hq
          · exact Or.inl (Or.inr hrest)
          · exact Or.inr ⟨q, hq, hrest⟩
    · simp only [if_neg h]
      constructor
      · rintro (hy | ⟨q, hq, hrest⟩)
        · exact Or.inl hy
        · exact Or.inr ⟨q, List.mem_cons_of_mem _ hq, hrest⟩
      · rintro (hy | ⟨q, hq, hrest⟩)
        · exact Or.inl hy
        · rcases List.mem_cons.mp hq with rfl | hq
          · exfalso
            rcases hrest with ⟨kws, hmem, kw, hkw, hd⟩
            apply h
            rw [List.any_eq_true]
            exact ⟨kw, mem_all_keywords_of_topic hmem hkw, by simpa only [beq_iff_eq] using hd⟩
          · exact Or.inr ⟨q, hq, hrest⟩

theorem keywords_nonempty :
    ∀ tk ∈ sensitive_topics, ∀ kw ∈ tk.2, kw.data.isEmpty = false := by decide

theorem sensitive_iff_topics_ne (text : Text) :
    (contains_sensitive_content text).1 = true ↔ (contains_sensitive_content text).2 ≠ [] := by
  unfold contains_sensitive_content
  by_cases h : text.isEmpty
  · simp [h]
  · simp only [if_neg h]
    simp [List.isEmpty_iff]

theorem mem_topics_iff (text : Text) (x : String) :
    x ∈ (contains_sensitive_content text).2 ↔
      ((∃ kws, (x, kws) ∈ sensitive_topics ∧ ∃ kw ∈ kws, strContains (pyLower text) kw.data = true) ∨
       ∃ p ∈ (preprocess_text text).zip (preprocess_text text).tail,
         ∃ kws, (x, kws) ∈ sensitive_topics ∧ ∃ kw ∈ kws, kw.data = joinBigram p.1 p.2) := by
  by_cases htext : text.isEmpty
  · have h0 : text = [] := List.isEmpty_iff.mp htext
    subst h0
    have hval : contains_sensitive_content [] = (false, []) := rfl
    rw [hval]
    constructor
    · intro hx; cases hx
    · rintro (⟨kws, hmem, kw, hkw, hc⟩ | ⟨p, hp, _⟩)
      · have hne := keywords_nonempty (x, kws) hmem kw hkw
        rw [show strContains (pyLower ([] : Text)) kw.data = kw.data.isEmpty from rfl] at hc
        rw [hne] at hc
        cases hc
      · rw [show (preprocess_text ([] : Text)).zip (preprocess_text ([] : Text)).tail =
            ([] : List (Text × Text)) from rfl] at hp
        cases hp
  · unfold contains_sensitive_content
    rw [if_neg htext]
    show x ∈ passBigram (passSubstr (pyLower text) [] sensitive_topics)
        ((preprocess_text text).zip (preprocess_text text).tail) ↔ _
    rw [mem_passBigram_iff, mem_passSubstr_iff]
    simp only [List.not_mem_nil, false_or]

/-- C3: for every text that contains some configured trigger phrase as a substring
of its lowercased form, contains_sensitive_content returns sensitive = true and
the detected topic set includes the topic owning that phrase. -/
theorem substring_match_detected (text : Text) (topic kw : String) (kws : List String)
    (hmem : (topic, kws) ∈ sensitive_topics) (hkw : kw ∈ kws)
    (hc : strContains (pyLower text) kw.data = true) :
    (contains_sensitive_content text).1 = true ∧
      topic ∈ (contains_sensitive_content text).2 := by
  have htop : topic ∈ (contains_sensitive_content text).2 :=
    (mem_topics_iff text topic).mpr (Or.inl ⟨kws, hmem, kw, hkw, hc⟩)
  refine ⟨?_, htop⟩
  rw [sensitive_iff_topics_ne]
  intro hnil
  rw [hnil] at htop
  exact absurd htop (List.not_mem_nil _)

/-- Witness for C3 at the spec scenario text, phrase rip of topic death. -/
theorem substring_match_detected_witness :
    (contains_sensitive_content (("So sorry for your loss, RIP").data)).1 = true ∧
      ("death") ∈ (contains_sensitive_content (("So sorry for your loss, RIP").data)).2 :=
  substring_match_detected _ ("death") ("rip") death_keywords (by decide) (by decide) (by decide)

/-- C4 counterexample: the text break. up contains no trigger phrase as a substring
of its lowercased form, yet the classifier does not return (false, []): the bigram
pass matches the phrase break up after punctuation stripping. -/
theorem no_trigger_counterexample :
    (∀ kw ∈ all_keywords, strContains (pyLower (("break. up").data)) kw.data = false) ∧
      contains_sensitive_content (("break. up").data) ≠ (false, []) :=
  ⟨by decide, by decide⟩

/-- C4 (amended): for every text in which no trigger phrase occurs as a substring of
the lowercased text and no adjacent pair of normalized tokens joined by one space
equals a trigger phrase, contains_sensitive_content returns sensitive = false and an
empty topic set; in particular the empty text is so classified. -/
theorem no_trigger_not_sensitive (text : Text)
    (hsub : ∀ kw ∈ all_keywords, strContains (pyLower text) kw.data = false)
    (hpair : ∀ p ∈ (preprocess_text text).zip (preprocess_text text).tail,
        ∀ kw ∈ all_keywords, kw.data ≠ joinBigram p.1 p.2) :
    contains_sensitive_content text = (false, []) := by
  have htop : (contains_sensitive_content text).2 = [] := by
    rw [List.eq_nil_iff_forall_not_mem]
    intro x hx
    rcases (mem_topics_iff text x).mp hx with ⟨kws, hmem, kw, hkw, hc⟩ |
      ⟨p, hp, kws, hmem, kw, hkw, hc⟩
    · rw [hsub kw (mem_all_keywords_of_topic hmem hkw)] at hc
      cases hc
    · exact hpair p hp kw (mem_all_keywords_of_topic hmem hkw) hc
  have h1 : (contains_sensitive_content text).1 = false := by
    rcases Bool.eq_false_or_eq_true (contains_sensitive_content text).1 with h | h
    · exact absurd htop ((sensitive_iff_topics_ne text).mp h)
    · exact h
  calc contains_sensitive_content text
      = ((contains_sensitive_content text).1, (contains_sensitive_content text).2) := rfl
    _ = (false, []) := by rw [h1, htop]

/-- Witness for C4 (amended) at the spec scenario text. -/
theorem no_trigger_not_sensitive_witness :
    contains_sensitive_content (("Check out this cute dog photo!").data) = (false, []) :=
  no_trigger_not_sensitive _ (by decide) (by decide)

/-- C10: the text what a script has no normalized token and no adjacent token pair
equal to any trigger phrase, yet the classifier marks it sensitive with topic
death, because the substring pass finds rip inside script. -/
theorem substring_false_positive :
    (∀ w ∈ preprocess_text (("what a script").data), ∀ kw ∈ all_keywords, w ≠ kw.data) ∧
      (∀ p ∈ (preprocess_text (("what a script").data)).zip
          (preprocess_text (("what a script").data)).tail,
        ∀ kw ∈ all_keywords, joinBigram p.1 p.2 ≠ kw.data) ∧
      (contains_sensitive_content (("what a script").data)).1 = true ∧
      ("death") ∈ (contains_sensitive_content (("what a script").data)).2 :=
  ⟨by decide, by decide, by decide, by decide⟩

/-- Witness for C10: the classifier flags the text, concretely. -/
theorem substring_false_positive_witness :
    (contains_sensitive_content (("what a script").data)).1 = true :=
  substring_false_positive.2.2.1

/-- C5: a post whose text cannot be extracted is eligible with reason No text
content (fails open); a post with text is rejected exactly when the classifier
marks it sensitive, and then the reason lists the matched topics comma-joined. -/
theorem should_reply_fail_open_spec (p : Post) :
    (p.text = none → should_reply_to_post p = (true, ("No text content"))) ∧
    (∀ t, p.text = some t →
      (((should_reply_to_post p).1 = false) ↔ (contains_sensitive_content t).1 = true) ∧
      ((contains_sensitive_content t).1 = true →
        (should_reply_to_post p).2 =
          ("Post contains sensitive topics: ") ++
            String.intercalate (", ") (contains_sensitive_content t).2)) := by
  constructor
  · intro h
    simp [should_reply_to_post, h]
  · intro t ht
    simp only [should_reply_to_post, ht]
    by_cases hs : (contains_sensitive_content t).1 <;> simp [hs]

/-- Witness for C5: a post with no text field is eligible, fail open. -/
theorem should_reply_fail_open_witness :
    should_reply_to_post ⟨("at://x/1"), ("cid1"), none, none⟩ = (true, ("No text content")) :=
  (should_reply_fail_open_spec _).1 rfl

theorem reply_to_post_cases (st : BotState) (p : Post) (rt : String) (env : ReplyEnv) :
    reply_to_post st p rt env = (false, st, []) ∨
      (∃ call, reply_to_post st p rt env = (false, st, [call]) ∧ env.dispatchOk = false) ∨
      (∃ call, reply_to_post st p rt env =
          (true, ⟨insert p.uri st.replied_posts,
            save_replied_posts (insert p.uri st.replied_posts)⟩, [call]) ∧
        env.dispatchOk = true) := by
  unfold reply_to_post
  split
  · exact Or.inl rfl
  · split
    · exact Or.inl rfl
    · split
      · exact Or.inl rfl
      · split
        · split
          next hd => exact Or.inr (Or.inr ⟨_, rfl, hd⟩)
          next hd => exact Or.inr (Or.inl ⟨_, rfl, Bool.eq_false_iff.mpr hd⟩)
        · split
          next hd => exact Or.inr (Or.inr ⟨_, rfl, hd⟩)
          next hd => exact Or.inr (Or.inl ⟨_, rfl, Bool.eq_false_iff.mpr hd⟩)

/-- C1: a post whose URI is already in the replied set yields false from
reply_to_post with no dispatch call and no state change; hence after a successful
reply, a second call for the same post issues no dispatch. -/
theorem reply_idempotent :
    (∀ (st : BotState) (p : Post) (rt : String) (env : ReplyEnv),
        p.uri ∈ st.replied_posts → reply_to_post st p rt env = (false, st, [])) ∧
    (∀ (st : BotState) (p : Post) (rt : String) (env : ReplyEnv) (st' : BotState)
        (calls : List DispatchCall) (rt' : String) (env' : ReplyEnv),
        reply_to_post st p rt env = (true, st', calls) →
        reply_to_post st' p rt' env' = (false, st', [])) := by
  have hmem : ∀ (st : BotState) (p : Post) (rt : String) (env : ReplyEnv),
      p.uri ∈ st.replied_posts → reply_to_post st p rt env = (false, st, []) := by
    intro st p rt env h
    unfold reply_to_post
    by_cases hs : (should_reply_to_post p).1 = false
    · rw [if_pos hs]
    · rw [if_neg hs, if_pos h]
  refine ⟨hmem, ?_⟩
  intro st p rt env st' calls rt' env' h
  rcases reply_to_post_cases st p rt env with hc | ⟨c, hc, _⟩ | ⟨c, hc, _⟩
  · rw [h] at hc
    simp at hc
  · rw [h] at hc
    simp at hc
  · rw [h] at hc
    simp only [Prod.mk.injEq, true_and] at hc
    apply hmem
    rw [hc.1]
    exact Finset.mem_insert_self _ _

/-- Witness for C1: the spec scenario post URI already in the replied set. -/
theorem reply_idempotent_witness :
    reply_to_post ⟨({("at://x/1")} : Finset String), .json [("at://x/1")]⟩
        ⟨("at://x/1"), ("cid1"), none, none⟩ ("hello") ⟨some (), true⟩ =
      (false, ⟨({("at://x/1")} : Finset String), .json [("at://x/1")]⟩, []) :=
  reply_idempotent.1 _ _ _ _ (Finset.mem_singleton_self _)

/-- C2: reply_to_post marks the post replied and persists the set exactly when the
dispatch succeeded; every false return leaves the state (memory and file)
unchanged, and a failing dispatch forces a false return. -/
theorem reply_marks_only_after_success (st : BotState) (p : Post) (rt : String)
    (env : ReplyEnv) :
    ((reply_to_post st p rt env).1 = true →
      env.dispatchOk = true ∧
      (reply_to_post st p rt env).2.1.replied_posts = insert p.uri st.replied_posts ∧
      (reply_to_post st p rt env).2.1.file =
        save_replied_posts (insert p.uri st.replied_posts) ∧
      (reply_to_post st p rt env).2.2 ≠ []) ∧
    ((reply_to_post st p rt env).1 = false → (reply_to_post st p rt env).2.1 = st) ∧
    (env.dispatchOk = false → (reply_to_post st p rt env).1 = false) := by
  rcases reply_to_post_cases st p rt env with hc | ⟨c, hc, hd⟩ | ⟨c, hc, hd⟩
  · rw [hc]
    refine ⟨?_, ?_, ?_⟩ <;> intro h
    · cases h
    · rfl
    · rfl
  · rw [hc]
    refine ⟨?_, ?_, ?_⟩ <;> intro h
    · cases h
    · rfl
    · rfl
  · rw [hc]
    refine ⟨?_, ?_, ?_⟩ <;> intro h
    · exact ⟨hd, rfl, rfl, by simp⟩
    · cases h
    · rw [hd] at h
      cases h

/-- Witness for C2: with a failing dispatch the call reports false. -/
theorem reply_marks_only_after_success_witness :
    (reply_to_post ⟨(∅ : Finset String), .missing⟩ ⟨("at://x/2"), ("cid2"), none, none⟩
        ("hi") ⟨some (), false⟩).1 = false :=
  (reply_marks_only_after_success _ _ _ _).2.2 rfl

/-- C6: the builder worklist holds exactly the source triples with id at least
start_from whose id is not among the already-processed CSV IDs, in ascending id
order; in particular with CSV IDs 1..10 and start_from 5 only IDs 11, 12 remain. -/
theorem builder_resume (parsed : List Triple) (processed : Finset Nat) (start_from : Nat) :
    (∀ t : Triple, t ∈ process_twitter_data_plan parsed processed start_from ↔
        t ∈ parsed ∧ start_from ≤ t.id ∧ t.id ∉ processed) ∧
    (process_twitter_data_plan parsed processed start_from).Pairwise
      (fun a b => a.id ≤ b.id) ∧
    process_twitter_data_plan
        ((List.range 12).map (fun i => (⟨i + 1, ("u"), ("c")⟩ : Triple)))
        (processed_ids_of ((List.range 10).map (fun i => i + 1))) 5 =
      [⟨11, ("u"), ("c")⟩, ⟨12, ("u"), ("c")⟩] := by
  refine ⟨?_, ?_, by decide⟩
  · intro t
    unfold process_twitter_data_plan extract_data_from_code
    rw [List.mem_filter, List.mem_insertionSort]
    simp [decide_eq_true_eq]
  · unfold process_twitter_data_plan extract_data_from_code
    exact (List.sorted_insertionSort _ parsed).filter _

/-- Witness for C6: the resume scenario instance of the theorem. -/
theorem builder_resume_witness :
    process_twitter_data_plan
        ((List.range 12).map (fun i => (⟨i + 1, ("u"), ("c")⟩ : Triple)))
        (processed_ids_of ((List.range 10).map (fun i => i + 1))) 5 =
      [⟨11, ("u"), ("c")⟩, ⟨12, ("u"), ("c")⟩] :=
  (builder_resume [] (∅ : Finset Nat) 0).2.2

theorem findRowById_eq_none_iff (x : Nat) :
    ∀ rows : List CsvRow, findRowById x rows = none ↔ ∀ r ∈ rows, r.id ≠ x := by
  intro rows
  induction rows with
  | nil => simp [findRowById]
  | cons r rs ih =>
    by_cases h : r.id = x
    · simp [findRowById, h]
    · simp [findRowById, h, ih]

theorem findRowById_first (x : Nat) (r : CsvRow) (post : List CsvRow) :
    ∀ pre : List CsvRow, r.id = x → (∀ q ∈ pre, q.id ≠ x) →
      findRowById x (pre ++ r :: post) = some (r.local_image_path, r.reply_text) := by
  intro pre
  induction pre with
  | nil =>
    intro hr _
    simp [findRowById, hr]
  | cons q qs ih =>
    intro hr hpre
    have hq : q.id ≠ x := hpre q (List.mem_cons_self _ _)
    simp only [List.cons_append, findRowById, if_neg hq]
    exact ih hr (fun q' hq' => hpre q' (List.mem_cons_of_mem _ hq'))

/-- C7: get_random_content scans the CSV for the row whose ID equals the drawn
integer (random.randint applied to the fixed bounds 1, 514): it returns the first
matching row's image path and caption, and the none signal exactly when no row
carries that ID. -/
theorem random_content_scan (randint : Nat → Nat → Nat) (rows : List CsvRow) :
    (get_random_content randint rows = none ↔ ∀ r ∈ rows, r.id ≠ randint 1 514) ∧
    (∀ (pre : List CsvRow) (r : CsvRow) (post : List CsvRow),
        rows = pre ++ r :: post → r.id = randint 1 514 →
        (∀ q ∈ pre, q.id ≠ randint 1 514) →
        get_random_content randint rows = some (r.local_image_path, r.reply_text)) := by
  constructor
  · exact findRowById_eq_none_iff _ rows
  · intro pre r post hrows hr hpre
    rw [hrows]
    exact findRowById_first _ r post pre hr hpre

/-- Witness for C7: a draw outside the dataset IDs yields the none signal. -/
theorem random_content_scan_witness :
    get_random_content (fun _ hi => hi)
        [⟨1, ("u1"), ("p1"), ("t1")⟩, ⟨2, ("u2"), ("p2"), ("t2")⟩] = none :=
  (random_content_scan _ _).1.mpr (by decide)

/-- C8: saving the replied set and reloading it yields an equal set; loading is
order-independent in the stored array, and a missing or undecodable file loads as
the empty set. -/
theorem replied_posts_roundtrip :
    (∀ s : Finset String, load_replied_posts (save_replied_posts s) = s) ∧
    (∀ l l' : List String, l.Perm l' →
        load_replied_posts (.json l) = load_replied_posts (.json l')) ∧
    load_replied_posts .missing = (∅ : Finset String) ∧
    load_replied_posts .malformed = (∅ : Finset String) := by
  refine ⟨?_, ?_, rfl, rfl⟩
  · intro s
    exact Finset.sort_toFinset _ s
  · intro l l' h
    exact List.toFinset_eq_of_perm l l' h

/-- Witness for C8: two stored orders of the same URIs load as the same set. -/
theorem replied_posts_roundtrip_witness :
    load_replied_posts (.json [("a"), ("b")]) = load_replied_posts (.json [("b"), ("a")]) :=
  replied_posts_roundtrip.2.1 _ _ (by decide)

/-- C9 counterexample: an element with no width/height attributes (dimensions
unavailable) and a non-profile src is rejected rather than accepted: int(None or
0) yields area 0, below the threshold, and no image is selected. -/
theorem image_pick_counterexample :
    (ImgElement.mk (some ("https://pbs.twimg.com/media/pic123.jpg")) none none).width
        = none ∧
    (ImgElement.mk (some ("https://pbs.twimg.com/media/pic123.jpg")) none none).height
        = none ∧
    profileLike ("https://pbs.twimg.com/media/pic123.jpg") = false ∧
    get_image_url
        [[ImgElement.mk (some ("https://pbs.twimg.com/media/pic123.jpg")) none none]]
      = none :=
  ⟨rfl, rfl, by decide, by decide⟩

/-- C9 (amended): the scrape selects the first element whose truthy src is not
profile/avatar-like and whose parsed width*height exceeds 10000, accepting the
element anyway when a dimension attribute fails integer parsing (ValueError);
absent dimension attributes count as 0 and fail the area test. Selectors whose
elements all fail are skipped, and the chosen URL is normalized. -/
theorem image_pick_amended :
    (∀ (e : ImgElement) (u : String), e.src = some u → u.data.isEmpty = false →
        profileLike u = false →
        ((pyIntAttr e.width = none ∨ pyIntAttr e.height = none) →
            elementValid e = some u) ∧
        (∀ w h : Nat, pyIntAttr e.width = some w → pyIntAttr e.height = some h →
            (elementValid e = some u ↔ 10000 < w * h))) ∧
    (∀ (e : ImgElement) (u : String), e.src = some u → profileLike u = true →
        elementValid e = none) ∧
    (∀ (els : List ImgElement) (rest : List (List ImgElement)),
        els.filterMap elementValid = [] →
        get_image_url (els :: rest) = get_image_url rest) ∧
    (∀ (pre : List ImgElement) (e : ImgElement) (post : List ImgElement) (u : String)
        (rest : List (List ImgElement)),
        (∀ q ∈ pre, elementValid q = none) → elementValid e = some u →
        get_image_url ((pre ++ e :: post) :: rest) = some (normalize_image_url u)) := by
  refine ⟨?_, ?_, ?_, ?_⟩
  · intro e u hsrc hne hprof
    constructor
    · rintro (hw | hh)
      · simp [elementValid, hsrc, hne, hprof, hw]
      · cases hw : pyIntAttr e.width with
        | none => simp [elementValid, hsrc, hne, hprof, hw]
        | some w => simp [elementValid, hsrc, hne, hprof, hw, hh]
    · intro w h hw hh
      by_cases harea : 10000 < w * h
      · simp [elementValid, hsrc, hne, hprof, hw, hh, harea]
      · simp [elementValid, hsrc, hne, hprof, hw, hh, harea]
  · intro e u hsrc hprof
    by_cases hne : u.data.isEmpty
    · simp [elementValid, hsrc, hne]
    · simp [elementValid, hsrc, hne, hprof]
  · intro els rest h
    simp only [get_image_url, h]
  · intro pre e post u rest hpre he
    have hfm : (pre ++ e :: post).filterMap elementValid =
        u :: post.filterMap elementValid := by
      rw [List.filterMap_append, List.filterMap_eq_nil_iff.mpr hpre]
      simp [List.filterMap_cons, he]
    simp only [get_image_url, hfm]

/-- Witness for C9 (amended): a large non-profile image is selected and its URL
normalized to the large format. -/
theorem image_pick_amended_witness :
    get_image_url [[ImgElement.mk (some ("https://x/img?format=png&name=small"))
        (some ("600")) (some ("400"))]] =
      some (normalize_image_url ("https://x/img?format=png&name=small")) :=
  image_pick_amended.2.2.2 [] _ [] _ [] (by simp) (by decide)

end RatBot
